import Mathlib

/-!
Shallow embedding of the Magento order/settlement reconciliation pipeline
(`magento_analytics_complete.py`, sections 4-7).

Modelling conventions:
- Monetary values (Python floats holding dollar amounts) are modelled as
  exact rationals; Python `round(x, 2)` / pandas `.round(2)` is modelled
  as rounding to the nearest cent (`round2`).
- pandas DataFrames / SQLite tables are modelled as Lean lists of
  structures; SQL joins and pandas merges are modelled as list operations
  with the same multiplicity semantics (one output row per matching pair,
  a single row with nulls for an unmatched left row of a left join).
- Text fields are `String`; the SKU and subtotal fields, which the
  pipeline transforms character by character, are `List Char`.
-/

namespace Magento

/-- Rounding to 2 decimal places, the model of `round(x, 2)`. -/
def round2 (q : ℚ) : ℚ := (round (q * 100) : ℤ) / 100

/-- A rational that is a whole number of cents, i.e. a value representable
with at most two decimal digits — the form every dollar amount in the
pipeline's data takes. -/
def IsCents (q : ℚ) : Prop := ∃ n : ℤ, q = n / 100

theorem round2_eq_self {q : ℚ} (h : IsCents q) : round2 q = q := by
  obtain ⟨n, rfl⟩ := h
  have h100 : (100 : ℚ) ≠ 0 := by norm_num
  simp [round2, div_mul_cancel₀, h100]

/-- A raw Magento order row (table `magento_orders`). -/
structure RawOrder where
  order_id : String
  customer_id : String
  order_date : String
  sku : List Char
  qty : ℕ
  subtotal : List Char
  state_tax : Option ℚ
  county_tax : Option ℚ
  combined_tax : Option ℚ
  shipping : Option ℚ
  discount : Option ℚ
  grand_total : ℚ
  status : String
  payment_method : String
  invoice_number : Option String
  deriving DecidableEq

/-- A payment processor transaction row (table `payment_transactions`). -/
structure Transaction where
  transaction_id : String
  order_id : String
  settle_date : String
  gross_amount : ℚ
  processor_fee : ℚ
  net_amount : ℚ
  status : String
  auth_code : String
  deriving DecidableEq

/-- A customer row (table `magento_customers`), restricted to the columns
the settlement join selects. -/
structure Customer where
  customer_id : String
  first_name : String
  last_name : String
  email : String
  state : String
  deriving DecidableEq

/-- A cleaned order row (table `orders_clean`, produced by Section 5).
The derived columns that are pure functions of these fields
(`payment_eligible`, `dynamics_code`, `status_label`, the incentive
columns) are modelled as functions on this structure, matching how
transforms T6/T7 compute them from `status` and `normalized_sku`. -/
structure CleanOrder where
  order_id : String
  customer_id : String
  order_date_iso : Option String
  normalized_sku : List Char
  qty : ℕ
  subtotal_clean : ℚ
  total_tax : Option ℚ
  tax_source : String
  shipping : Option ℚ
  discount : Option ℚ
  grand_total : ℚ
  status : String
  payment_method : String
  invoice_number : Option String
  deriving DecidableEq

/-! ### Transform 6: status code mapping -/

/-- The fixed `STATUS_MAP` lookup of transform T6:
status to (dynamics_code, label, payment_eligible), with the
`("000", "UNKNOWN", False)` default for unknown statuses. -/
def STATUS_MAP (s : String) : String × String × Bool :=
  if s = "complete" then ("110", "INVOICED", true)
  else if s = "processing" then ("100", "IN_PROGRESS", true)
  else if s = "closed" then ("120", "CLOSED", false)
  else if s = "pending" then ("50", "PENDING", false)
  else if s = "canceled" then ("999", "VOID", false)
  else ("000", "UNKNOWN", false)

/-- The `payment_eligible` column of `orders_clean`: T6 derives it from
`status` through `STATUS_MAP`. -/
def payment_eligible (o : CleanOrder) : Bool := (STATUS_MAP o.status).2.2

/-! ### Transform 4: tax field unification (`resolve_tax`) -/

/-- `resolve_tax` of transform T4: returns `(total_tax, tax_source)`.
Combined tax wins; otherwise both itemized fields must be present and are
summed; otherwise the tax is absent with source `"missing"`. -/
def resolve_tax (o : RawOrder) : Option ℚ × String :=
  match o.combined_tax with
  | some c => (some (round2 c), "combined")
  | none =>
    match o.state_tax, o.county_tax with
    | some s, some c => (some (round2 (s + c)), "itemized")
    | _, _ => (none, "missing")

/-! ### Transform 7: SKU to incentive program mapping -/

/-- The fixed `INCENTIVE_MAP` dictionary of transform T7: normalized SKU
to (program_name, reimbursement_rate), with `("UNMAPPED", 0)` for keys
absent from the dictionary. -/
def INCENTIVE_MAP (s : List Char) : String × ℚ :=
  if s = "SKU-LED-001".data then ("ENERGY_EFF_LIGHTING", 0.15)
  else if s = "SKU-THERM-002".data then ("SMART_THERMOSTAT", 0.20)
  else if s = "SKU-SMART-003".data then ("SMART_HOME_PROG", 0.18)
  else if s = "SKU-AUDIT-004".data then ("HOME_ENERGY_AUDIT", 0.25)
  else if s = "SKU-HVAC-005".data then ("HVAC_UPGRADE", 0.22)
  else if s = "HVAC-005".data then ("HVAC_UPGRADE", 0.22)
  else if s = "SKU-REBATE-006".data then ("DIRECT_REBATE", 0.30)
  else if s = "THERM002".data then ("SMART_THERMOSTAT", 0.20)
  else ("UNMAPPED", 0)

/-- The keys of `INCENTIVE_MAP`. -/
def incentiveKeys : List (List Char) :=
  ["SKU-LED-001".data, "SKU-THERM-002".data, "SKU-SMART-003".data,
   "SKU-AUDIT-004".data, "SKU-HVAC-005".data, "HVAC-005".data,
   "SKU-REBATE-006".data, "THERM002".data]

/-- The `incentive_program` column of T7. -/
def incentive_program (o : CleanOrder) : String :=
  (INCENTIVE_MAP o.normalized_sku).1

/-- The `incentive_rate` column of T7. -/
def incentive_rate (o : CleanOrder) : ℚ :=
  (INCENTIVE_MAP o.normalized_sku).2

/-- The `incentive_amount` column of T7:
`(subtotal_clean * incentive_rate).round(2)`. -/
def incentive_amount (o : CleanOrder) : ℚ :=
  round2 (o.subtotal_clean * incentive_rate o)

/-! ### Transform 8: grand total recomputation cross-check -/

/-- The `grand_total_check` column of T8:
`(subtotal_clean + total_tax.fillna(0) + shipping.fillna(0) -
discount.fillna(0)).round(2)`. -/
def grand_total_check (o : CleanOrder) : ℚ :=
  round2 (o.subtotal_clean + (o.total_tax.getD 0) + (o.shipping.getD 0)
    - (o.discount.getD 0))

/-- The T8 mismatch condition:
`(grand_total_check - grand_total).abs() > 0.02`. -/
def grand_total_mismatch (o : CleanOrder) : Bool :=
  decide (|grand_total_check o - o.grand_total| > 0.02)

/-- The rows T8 reports: `orders[(check - grand_total).abs() > 0.02]`. -/
def t8_mismatches (orders : List CleanOrder) : List CleanOrder :=
  orders.filter grand_total_mismatch

/-! ### Transform 1: deduplication -/

/-- Recursion for `drop_duplicates(subset="order_id", keep="first")`:
`seen` holds the order identifiers already kept. -/
def dropDupAux (seen : List String) : List RawOrder → List RawOrder
  | [] => []
  | o :: rest =>
    if o.order_id ∈ seen then dropDupAux seen rest
    else o :: dropDupAux (o.order_id :: seen) rest

/-- Transform T1, `orders.drop_duplicates(subset="order_id", keep="first")`:
keeps the first row for each order identifier, in input order. Being a
pure function of the input list, it is deterministic for identical input
ordering by construction. -/
def drop_duplicates_first (orders : List RawOrder) : List RawOrder :=
  dropDupAux [] orders

/-! ### Transform 2: SKU normalization -/

/-- `.str.upper()` on a SKU. -/
def toUpperList (l : List Char) : List Char := l.map Char.toUpper

/-- `.str.strip()` on a SKU: drop leading and trailing whitespace. -/
def stripList (l : List Char) : List Char :=
  ((l.dropWhile Char.isWhitespace).reverse.dropWhile Char.isWhitespace).reverse

/-- `.str.replace("_", "-").str.replace(" ", "-")` on a SKU. -/
def sepToHyphen (l : List Char) : List Char :=
  (l.map fun c => if c == '_' then '-' else c).map
    fun c => if c == ' ' then '-' else c

/-- Transform T2, the `normalized_sku` column: uppercase, strip
surrounding whitespace, then replace underscores and spaces by hyphens. -/
def normalize_sku (l : List Char) : List Char :=
  sepToHyphen (stripList (toUpperList l))

/-! ### Transform 3: currency normalization -/

/-- `str.replace("$", "").str.replace(",", "")`: removes every dollar sign
and every comma from the text. -/
def strip_currency (l : List Char) : List Char :=
  l.filter fun c => !(c == '$' || c == ',')

/-- Value of a digit string. -/
def digitsVal (l : List Char) : ℕ :=
  l.foldl (fun a c => a * 10 + (c.toNat - 48)) 0

/-- Model of Python `float(s)` on the unsigned decimal literals the
pipeline's currency data contains: an optional integer part, an optional
fractional part separated by one dot, at least one digit in total.
Anything else (in particular non-numeric residue) is a parse failure,
which `astype(float)` raises on. -/
def parseFloat (l : List Char) : Option ℚ :=
  match l.splitOn '.' with
  | [ip] =>
    if ip ≠ [] ∧ ip.all Char.isDigit then some (digitsVal ip) else none
  | [ip, fp] =>
    if (ip ≠ [] ∨ fp ≠ []) ∧ ip.all Char.isDigit ∧ fp.all Char.isDigit then
      some ((digitsVal ip : ℚ) + (digitsVal fp : ℚ) / 10 ^ fp.length)
    else none
  | _ => none

/-- The `subtotal_clean` value for one order: strip `$` and `,`, parse as
a number, round to 2 decimals; `none` is a parse failure. -/
def subtotal_clean (o : RawOrder) : Option ℚ :=
  (parseFloat (strip_currency o.subtotal)).map round2

/-- Transform T3 over a whole batch. `.astype(float)` raises a `ValueError`
on the first unconvertible value, so a single parse failure yields an
error for the entire column and no value for any row. -/
def clean_subtotals : List RawOrder → Except String (List ℚ)
  | [] => .ok []
  | o :: rest =>
    match subtotal_clean o with
    | none => .error "could not convert string to float"
    | some q =>
      match clean_subtotals rest with
      | .ok qs => .ok (q :: qs)
      | .error e => .error e

/-! ### Section 4G: orphan transaction detection (Validator) -/

/-- An Issue row as logged in `issues_log`. The `detail` text of an
orphan issue interpolates the transaction's gross amount; the amount is
modelled as the structured `amount` field (string formatting of numbers
is outside the embedding). -/
structure Issue where
  issue_type : String
  order_id : Option String
  transaction_id : Option String
  amount : Option ℚ
  action_required : String
  deriving DecidableEq

/-- The 4G query: transactions left-joined to orders on `order_id`, kept
when no order matched and the transaction status is `settled`. -/
def orphan_transactions (orders : List RawOrder) (txns : List Transaction) :
    List Transaction :=
  txns.filter fun t =>
    t.status == "settled" && orders.all fun o => !(o.order_id == t.order_id)

/-- The Issue logged for one orphan transaction in 4G. -/
def mkOrphanIssue (t : Transaction) : Issue :=
  { issue_type := "ORPHAN_TRANSACTION"
    order_id := some t.order_id
    transaction_id := some t.transaction_id
    amount := some t.gross_amount
    action_required := "Escalate to finance team for investigation" }

/-- The orphan-transaction Issues appended to `issues_log` by 4G. -/
def orphan_issues (orders : List RawOrder) (txns : List Transaction) :
    List Issue :=
  (orphan_transactions orders txns).map mkOrphanIssue

/-! ### Section 6: reconciliation queries -/

/-- The 6C query (unsettled orders): `orders_clean` left-joined to
`payment_transactions` on `order_id`, kept when `payment_eligible = 1`
and no transaction row (of any status) matched. -/
def unsettled_orders (orders : List CleanOrder) (txns : List Transaction) :
    List CleanOrder :=
  orders.filter fun o =>
    payment_eligible o && txns.all fun t => !(t.order_id == o.order_id)

/-- One row of the 6D amount-mismatch result. -/
structure MismatchRow where
  order_id : String
  magento_total : ℚ
  processor_total : ℚ
  discrepancy : ℚ
  deriving DecidableEq

/-- The 6D row built from a joined order/transaction pair. -/
def mkMismatchRow (o : CleanOrder) (t : Transaction) : MismatchRow :=
  { order_id := o.order_id
    magento_total := o.grand_total
    processor_total := t.gross_amount
    discrepancy := round2 |o.grand_total - t.gross_amount| }

/-- The 6D query (amount mismatches): `orders_clean` inner-joined to
`payment_transactions` on `order_id` (all transaction statuses), kept
when `ABS(o.grand_total - t.gross_amount) > 0.01`. The query's
`ORDER BY discrepancy DESC` only permutes rows and is not modelled. -/
def amount_mismatches (orders : List CleanOrder) (txns : List Transaction) :
    List MismatchRow :=
  ((orders.flatMap fun o =>
      (txns.filter fun t => t.order_id == o.order_id).map fun t => (o, t))
    |>.filter fun p =>
      decide (|p.1.grand_total - p.2.gross_amount| > 0.01))
    |>.map fun p => mkMismatchRow p.1 p.2

/-! ### Section 7: settlement assembly -/

/-- One row of the settlement output: the joined order, settled
transaction and (optionally matched) customer. `settlement_final` merely
selects and renames columns of this join; customer fields are null
exactly when `customer` is `none`. -/
structure SettlementRecord where
  order : CleanOrder
  txn : Transaction
  customer : Option Customer
  deriving DecidableEq

/-- `transactions[transactions["status"] == "settled"]`. -/
def settled_transactions (txns : List Transaction) : List Transaction :=
  txns.filter fun t => t.status == "settled"

/-- `orders_clean[orders_clean["payment_eligible"] == True]`. -/
def eligible_orders (orders : List CleanOrder) : List CleanOrder :=
  orders.filter payment_eligible

/-- Section 7: eligible orders inner-merged with settled transactions on
`order_id`, then left-merged with customers on `customer_id` (an
unmatched customer key yields a single row with null customer fields). -/
def settlement (orders : List CleanOrder) (txns : List Transaction)
    (customers : List Customer) : List SettlementRecord :=
  (eligible_orders orders).flatMap fun o =>
    ((settled_transactions txns).filter fun t => t.order_id == o.order_id).flatMap
      fun t =>
        match customers.filter fun c => c.customer_id == o.customer_id with
        | [] => [{ order := o, txn := t, customer := none }]
        | ms => ms.map fun c => { order := o, txn := t, customer := some c }

/-! ## Theorems -/

/-- C5: tax unification resolves by the fixed priority — a present
combined-tax field wins with provenance "combined"; otherwise two present
itemized fields are summed and rounded with provenance "itemized";
otherwise the unified tax is absent with provenance "missing"; and a
populated tax value never coexists with "missing" provenance (the single
returned provenance tag is "missing" exactly when the value is absent). -/
theorem c5_tax_unification (o : RawOrder)
    (hc : ∀ q, o.combined_tax = some q → IsCents q) :
    (∀ q, o.combined_tax = some q → resolve_tax o = (some q, "combined")) ∧
    (o.combined_tax = none → ∀ s c, o.state_tax = some s →
      o.county_tax = some c →
      resolve_tax o = (some (round2 (s + c)), "itemized")) ∧
    (o.combined_tax = none → (o.state_tax = none ∨ o.county_tax = none) →
      resolve_tax o = (none, "missing")) ∧
    ((resolve_tax o).1 = none ↔ (resolve_tax o).2 = "missing") := by
  refine ⟨?_, ?_, ?_, ?_⟩
  · intro q hq
    simp [resolve_tax, hq, round2_eq_self (hc q hq)]
  · intro h s c hs hcy
    simp [resolve_tax, h, hs, hcy]
  · intro h hor
    rcases hor with h1 | h1 <;>
      cases hst : o.state_tax <;> cases hcy : o.county_tax <;>
      simp_all [resolve_tax]
  · cases hcb : o.combined_tax with
    | some q => simp [resolve_tax, hcb]
    | none =>
      cases hst : o.state_tax <;> cases hcy : o.county_tax <;>
        simp [resolve_tax, hcb, hst, hcy]

/-- A concrete raw order carrying a combined tax of 7.50, used to
instantiate the tax-unification and recomputation theorems. -/
def combinedTaxOrder : RawOrder :=
  { order_id := "ORD-00001"
    customer_id := "CUST-0001"
    order_date := "06/01/2024 10:00"
    sku := "SKU-LED-001".data
    qty := 1
    subtotal := "$100.00".data
    state_tax := none
    county_tax := none
    combined_tax := some 7.5
    shipping := some 5
    discount := some 2
    grand_total := 110.5
    status := "complete"
    payment_method := "authorizenet"
    invoice_number := some "INV-00001" }

/-- Witness for C5 at a concrete order with combined tax 7.50. -/
theorem c5_tax_unification_witness :
    resolve_tax combinedTaxOrder = (some 7.5, "combined") := by
  have h := (c5_tax_unification combinedTaxOrder
    (fun q hq => by
      simp only [combinedTaxOrder, Option.some.injEq] at hq
      exact hq ▸ ⟨750, by norm_num⟩)).1
  exact h 7.5 rfl

/-- C7: the incentive resolver maps a canonical product identifier to a
(program, rate) pair, with identifiers absent from `INCENTIVE_MAP`
resolving to ("UNMAPPED", 0); the incentive amount is
`round2 (subtotal * rate)`; and the canonical SKU "SKU-LED-001" with
subtotal 200.00 resolves to program ENERGY_EFF_LIGHTING at rate 0.15
with incentive amount 30.00. -/
theorem c7_incentive_resolution (s : List Char) (hs : s ∉ incentiveKeys) :
    INCENTIVE_MAP s = ("UNMAPPED", 0) ∧
    (∀ o : CleanOrder, incentive_amount o =
      round2 (o.subtotal_clean * (INCENTIVE_MAP o.normalized_sku).2)) ∧
    (∀ o : CleanOrder, o.normalized_sku = "SKU-LED-001".data →
      o.subtotal_clean = 200 →
      incentive_program o = "ENERGY_EFF_LIGHTING" ∧
      incentive_rate o = 0.15 ∧ incentive_amount o = 30) := by
  refine ⟨?_, fun o => rfl, ?_⟩
  · simp only [incentiveKeys, List.mem_cons, List.mem_singleton, not_or] at hs
    obtain ⟨h1, h2, h3, h4, h5, h6, h7, h8⟩ := hs
    simp [INCENTIVE_MAP, h1, h2, h3, h4, h5, h6, h7, h8]
  · intro o h1 h2
    refine ⟨?_, ?_, ?_⟩ <;>
      simp [incentive_program, incentive_rate, incentive_amount,
        INCENTIVE_MAP, h1, h2] <;> norm_num [round2, round_eq]

/-- Witness for C7 at an identifier absent from the map and at a
concrete order with the canonical lighting SKU and subtotal 200. -/
theorem c7_incentive_resolution_witness :
    INCENTIVE_MAP "SKU-XYZ-999".data = ("UNMAPPED", 0) ∧
    incentive_amount
      { order_id := "ORD-00002", customer_id := "CUST-0002",
        order_date_iso := some "2024-06-01T10:00:00Z",
        normalized_sku := "SKU-LED-001".data, qty := 1,
        subtotal_clean := 200, total_tax := some 15,
        tax_source := "combined", shipping := some 0, discount := some 0,
        grand_total := 215, status := "complete",
        payment_method := "authorizenet",
        invoice_number := some "INV-00002" } = 30 := by
  have h := c7_incentive_resolution "SKU-XYZ-999".data (by decide)
  exact ⟨h.1, (h.2.2 _ rfl rfl).2.2⟩

/-- The synthetic order of the C10 instance: subtotal 100.00, combined
tax 7.50 (unified through `resolve_tax`), shipping 5.00, discount 2.00,
recorded grand total 110.50. -/
def c10Order : CleanOrder :=
  { order_id := "ORD-00001"
    customer_id := "CUST-0001"
    order_date_iso := some "2024-06-01T10:00:00Z"
    normalized_sku := "SKU-LED-001".data
    qty := 1
    subtotal_clean := 100
    total_tax := (resolve_tax combinedTaxOrder).1
    tax_source := (resolve_tax combinedTaxOrder).2
    shipping := some 5
    discount := some 2
    grand_total := 110.5
    status := "complete"
    payment_method := "authorizenet"
    invoice_number := some "INV-00001" }

/-- The same synthetic order with the recorded grand total changed
to 120.00. -/
def c10OrderBad : CleanOrder := { c10Order with grand_total := 120 }

/-- C10: the T8 cross-check recomputes
`round2 (subtotal + tax (absent as 0) + shipping (absent as 0) -
discount (absent as 0))` and flags a mismatch exactly when the absolute
difference from the recorded grand total exceeds 2 cents; on the
synthetic order (subtotal 100.00, combined tax 7.50, shipping 5.00,
discount 2.00) the recomputed total is 110.50, a recorded total of
110.50 is not flagged, and a recorded total of 120.00 is flagged with
discrepancy 9.50. -/
theorem c10_grand_total_recomputation :
    (∀ o : CleanOrder, grand_total_mismatch o = true ↔
      |grand_total_check o - o.grand_total| > 2 / 100) ∧
    grand_total_check c10Order = 110.5 ∧
    grand_total_mismatch c10Order = false ∧
    grand_total_check c10OrderBad = 110.5 ∧
    grand_total_mismatch c10OrderBad = true ∧
    |grand_total_check c10OrderBad - c10OrderBad.grand_total| = 9.5 ∧
    t8_mismatches [c10Order, c10OrderBad] = [c10OrderBad] := by
  have hres : resolve_tax combinedTaxOrder = (some 7.5, "combined") := by
    simp [resolve_tax, combinedTaxOrder]
    norm_num [round2, round_eq]
  have hchk : grand_total_check c10Order = 110.5 := by
    simp [grand_total_check, c10Order, hres]
    norm_num [round2, round_eq]
  have hchk2 : grand_total_check c10OrderBad = 110.5 := by
    simp [grand_total_check, c10OrderBad, c10Order, hres]
    norm_num [round2, round_eq]
  have hmm1 : grand_total_mismatch c10Order = false := by
    simp only [grand_total_mismatch, hchk, decide_eq_false_iff_not, not_lt]
    show |(110.5 : ℚ) - c10Order.grand_total| ≤ 0.02
    norm_num [c10Order]
  have hmm2 : grand_total_mismatch c10OrderBad = true := by
    simp only [grand_total_mismatch, hchk2, decide_eq_true_eq]
    show |(110.5 : ℚ) - c10OrderBad.grand_total| > 0.02
    rw [show (110.5 : ℚ) - c10OrderBad.grand_total = -9.5 by
        norm_num [c10OrderBad, c10Order],
      abs_neg, abs_of_nonneg (by norm_num : (0 : ℚ) ≤ 9.5)]
    norm_num
  refine ⟨fun o => ?_, hchk, hmm1, hchk2, hmm2, ?_, ?_⟩
  · simp only [grand_total_mismatch, decide_eq_true_eq]
    norm_num
  · rw [hchk2]
    show |(110.5 : ℚ) - c10OrderBad.grand_total| = 9.5
    norm_num [c10OrderBad, c10Order]
  · simp [t8_mismatches, List.filter, hmm1, hmm2]

theorem dropDupAux_filter (i : String) (xs : List RawOrder) :
    ∀ seen : List String,
      (dropDupAux seen xs).filter (fun o => o.order_id == i) =
        if i ∈ seen then [] else (xs.find? fun o => o.order_id == i).toList := by
  induction xs with
  | nil => intro seen; by_cases hi : i ∈ seen <;> simp [dropDupAux, hi]
  | cons o rest ih =>
    intro seen
    by_cases hmem : o.order_id ∈ seen
    · rw [dropDupAux, if_pos hmem, ih seen]
      by_cases hi : i ∈ seen
      · simp [hi]
      · have hne : (o.order_id == i) = false := by
          simp only [beq_eq_false_iff_ne, ne_eq]
          rintro rfl; exact hi hmem
        simp [hi, List.find?, hne]
    · rw [dropDupAux, if_neg hmem]
      by_cases hoi : o.order_id = i
      · subst hoi
        rw [List.filter_cons_of_pos (by simp), ih (o.order_id :: seen),
          if_pos (List.mem_cons_self _ _), if_neg hmem]
        simp [List.find?]
      · have hne : (o.order_id == i) = false := by simp [hoi]
        rw [List.filter_cons_of_neg (by simp [hne]), ih (o.order_id :: seen)]
        by_cases hi : i ∈ seen
        · simp [hi, List.mem_cons]
        · have : i ∉ o.order_id :: seen := by
            simp only [List.mem_cons, not_or]
            exact ⟨fun h => hoi h.symm, hi⟩
          rw [if_neg this, if_neg hi]
          simp [List.find?, hne]

theorem drop_duplicates_first_count (l : List RawOrder) (a : String) :
    ((drop_duplicates_first l).map (fun o => o.order_id)).count a =
      ((l.find? fun o => o.order_id == a).toList).length := by
  rw [List.count, List.countP_map]
  have : ((fun x => x == a) ∘ fun o : RawOrder => o.order_id) =
      fun o : RawOrder => o.order_id == a := rfl
  rw [this, List.countP_eq_length_filter, drop_duplicates_first,
    dropDupAux_filter a l [], if_neg (List.not_mem_nil a)]

/-- C6: deduplication keeps, for each order identifier, exactly the first
record in original ingestion order (the rows with identifier `i` that
survive are exactly `find?` of the input, the first such row), discards
all later records with that identifier, and afterwards every identifier
present occurs exactly once. Determinism for identical input ordering is
immediate: the embedding is a pure function of the input list. -/
theorem c6_deduplication (l : List RawOrder) (i : String)
    (hi : i ∈ l.map fun o => o.order_id) :
    ((drop_duplicates_first l).filter fun o => o.order_id == i) =
      (l.find? fun o => o.order_id == i).toList ∧
    ((drop_duplicates_first l).map fun o => o.order_id).Nodup ∧
    ((drop_duplicates_first l).map fun o => o.order_id).count i = 1 := by
  refine ⟨?_, ?_, ?_⟩
  · rw [drop_duplicates_first, dropDupAux_filter i l [],
      if_neg (List.not_mem_nil i)]
  · rw [List.nodup_iff_count_le_one]
    intro a
    rw [drop_duplicates_first_count l a]
    cases l.find? fun o => o.order_id == a <;> simp
  · rw [drop_duplicates_first_count l i]
    obtain ⟨o, ho, hoi⟩ := List.mem_map.mp hi
    have : (l.find? fun o => o.order_id == i).isSome := by
      rw [List.find?_isSome]
      exact ⟨o, ho, by simp [hoi]⟩
    obtain ⟨v, hv⟩ := Option.isSome_iff_exists.mp this
    simp [hv]

/-- Two concrete raw orders sharing an identifier, and a third distinct
one, instantiating the deduplication theorem. -/
def dupOrderA : RawOrder :=
  { combinedTaxOrder with order_id := "ORD-00010", qty := 1 }

/-- A later duplicate of `dupOrderA` differing in quantity. -/
def dupOrderB : RawOrder :=
  { combinedTaxOrder with order_id := "ORD-00010", qty := 2 }

/-- A distinct order for the deduplication witness. -/
def dupOrderC : RawOrder :=
  { combinedTaxOrder with order_id := "ORD-00011", qty := 3 }

/-- Witness for C6 on a batch where "ORD-00010" appears twice: the first
occurrence survives, the later one is dropped, identifiers end unique. -/
theorem c6_deduplication_witness :
    (((drop_duplicates_first [dupOrderA, dupOrderB, dupOrderC]).filter
        fun o => o.order_id == "ORD-00010") =
      ([dupOrderA, dupOrderB, dupOrderC].find?
        fun o => o.order_id == "ORD-00010").toList) ∧
    (((drop_duplicates_first [dupOrderA, dupOrderB, dupOrderC]).map
        fun o => o.order_id).Nodup) ∧
    (((drop_duplicates_first [dupOrderA, dupOrderB, dupOrderC]).map
        fun o => o.order_id).count "ORD-00010" = 1) :=
  c6_deduplication [dupOrderA, dupOrderB, dupOrderC] "ORD-00010" (by decide)

/-- An order and a matching transaction whose amounts differ by exactly
2 cents, inside the tolerance the spec states for 6D. -/
def c1Order : CleanOrder :=
  { c10Order with order_id := "ORD-00021", grand_total := 100 }

/-- The transaction matching `c1Order`, with gross amount 100.02. -/
def c1Txn : Transaction :=
  { transaction_id := "TXN-100021"
    order_id := "ORD-00021"
    settle_date := "2024-06-03"
    gross_amount := 100.02
    processor_fee := 3.2
    net_amount := 96.82
    status := "settled"
    auth_code := "AUTH10021" }

/-- C1 counterexample: a matched pair whose absolute difference is
exactly 2 cents does NOT exceed the claimed 2-cent tolerance, yet the
6D query emits a mismatch row for it — the code's threshold is
`> 0.01`, one cent, not two. -/
theorem c1_tolerance_counterexample :
    ¬(|c1Order.grand_total - c1Txn.gross_amount| > 2 / 100) ∧
    amount_mismatches [c1Order] [c1Txn] =
      [{ order_id := "ORD-00021", magento_total := 100,
         processor_total := 100.02, discrepancy := 0.02 }] := by
  have habs : |c1Order.grand_total - c1Txn.gross_amount| = 0.02 := by
    rw [show c1Order.grand_total - c1Txn.gross_amount = -0.02 by
        norm_num [c1Order, c10Order, c1Txn],
      abs_neg, abs_of_nonneg (by norm_num : (0 : ℚ) ≤ 0.02)]
  have habs2 : |(100 : ℚ) - 100.02| = 0.02 := by
    rw [show (100 : ℚ) - 100.02 = -0.02 by norm_num, abs_neg,
      abs_of_nonneg (by norm_num : (0 : ℚ) ≤ 0.02)]
  constructor
  · rw [habs]; norm_num
  · have h1 : (decide ((0.01 : ℚ) < |(100 : ℚ) - 100.02|)) = true := by
      apply decide_eq_true
      rw [habs2]; norm_num
    simp [amount_mismatches, mkMismatchRow, c1Order, c10Order, c1Txn,
      List.filter_cons, h1, habs2]
    rw [if_pos (show (0.01 : ℚ) < 0.02 by norm_num)]
    simp [habs2]
    norm_num [round2, round_eq]

/-- C1 (amended): the 6D tolerance in the code is one cent. For matched
order/transaction pairs, a mismatch row — carrying the order's grand
total, the transaction's gross amount and their rounded discrepancy — is
emitted when the absolute difference exceeds $0.01, every emitted row
comes from such a pair and exceeds that tolerance, and pairs within the
one-cent tolerance produce no row. -/
theorem c1_amount_mismatch_amended (orders : List CleanOrder)
    (txns : List Transaction) :
    (∀ r ∈ amount_mismatches orders txns,
      |r.magento_total - r.processor_total| > 1 / 100 ∧
      r.discrepancy = round2 |r.magento_total - r.processor_total| ∧
      ∃ o ∈ orders, ∃ t ∈ txns, t.order_id = o.order_id ∧
        r = mkMismatchRow o t) ∧
    (∀ o ∈ orders, ∀ t ∈ txns, t.order_id = o.order_id →
      |o.grand_total - t.gross_amount| > 1 / 100 →
      mkMismatchRow o t ∈ amount_mismatches orders txns) ∧
    (∀ o ∈ orders, ∀ t ∈ txns, t.order_id = o.order_id →
      ¬(|o.grand_total - t.gross_amount| > 1 / 100) →
      mkMismatchRow o t ∉ amount_mismatches orders txns) := by
  have hconv : ∀ a b : ℚ, (|a - b| > 0.01) ↔ (|a - b| > 1 / 100) := by
    intro a b
    constructor <;> intro h <;>
      [exact lt_of_le_of_lt (by norm_num) h;
       exact lt_of_le_of_lt (by norm_num) h]
  refine ⟨?_, ?_, ?_⟩
  · intro r hr
    simp only [amount_mismatches, List.mem_map, List.mem_filter,
      List.mem_flatMap, decide_eq_true_eq] at hr
    obtain ⟨⟨po, pt⟩, ⟨⟨o, ho, t, ⟨ht, hbeq⟩, heq⟩, hgt⟩, rfl⟩ := hr
    cases heq
    exact ⟨(hconv _ _).mp hgt, rfl, _, ho, _, ht, eq_of_beq hbeq, rfl⟩
  · intro o ho t ht hid hgt
    simp only [amount_mismatches, List.mem_map]
    refine ⟨(o, t), ?_, rfl⟩
    simp only [List.mem_filter, List.mem_flatMap, decide_eq_true_eq]
    refine ⟨⟨o, ho, ?_⟩, (hconv _ _).mpr hgt⟩
    simp only [List.mem_map, List.mem_filter]
    exact ⟨t, ⟨ht, by simp [hid]⟩, rfl⟩
  · intro o ho t ht hid hle hmem
    simp only [amount_mismatches, List.mem_map, List.mem_filter,
      List.mem_flatMap, decide_eq_true_eq] at hmem
    obtain ⟨⟨po, pt⟩, ⟨_, hgt⟩, hrow⟩ := hmem
    have h1 : po.grand_total = o.grand_total :=
      congrArg MismatchRow.magento_total hrow
    have h2 : pt.gross_amount = t.gross_amount :=
      congrArg MismatchRow.processor_total hrow
    rw [h1, h2] at hgt
    exact hle ((hconv _ _).mp hgt)

/-- Witness for the amended C1: on the concrete pair differing by 2
cents (which exceeds the one-cent tolerance) the mismatch row is
emitted. -/
theorem c1_amount_mismatch_amended_witness :
    mkMismatchRow c1Order c1Txn ∈ amount_mismatches [c1Order] [c1Txn] := by
  refine (c1_amount_mismatch_amended [c1Order] [c1Txn]).2.1 c1Order
    (List.mem_singleton.mpr rfl) c1Txn (List.mem_singleton.mpr rfl) rfl ?_
  rw [show c1Order.grand_total - c1Txn.gross_amount = -0.02 by
      norm_num [c1Order, c10Order, c1Txn],
    abs_neg, abs_of_nonneg (by norm_num : (0 : ℚ) ≤ 0.02)]
  norm_num

theorem mem_settlement {orders : List CleanOrder} {txns : List Transaction}
    {customers : List Customer} {r : SettlementRecord} :
    r ∈ settlement orders txns customers ↔
      r.order ∈ orders ∧ payment_eligible r.order = true ∧
      r.txn ∈ txns ∧ r.txn.status = "settled" ∧
      r.txn.order_id = r.order.order_id ∧
      ((r.customer = none ∧
          ∀ c ∈ customers, c.customer_id ≠ r.order.customer_id) ∨
        (∃ c ∈ customers, r.customer = some c ∧
          c.customer_id = r.order.customer_id)) := by
  constructor
  · intro hr
    simp only [settlement, List.mem_flatMap, List.mem_filter,
      eligible_orders, settled_transactions] at hr
    obtain ⟨o, ⟨ho, helig⟩, t, ⟨⟨ht, hst⟩, hmatch⟩, hrec⟩ := hr
    have hcase := hrec
    rcases hfil : customers.filter (fun c => c.customer_id == o.customer_id)
      with _ | ⟨c0, cs⟩
    · rw [hfil] at hcase
      simp only [List.mem_singleton] at hcase
      subst hcase
      refine ⟨ho, helig, ht, by simpa using hst, by simpa using hmatch, ?_⟩
      left
      refine ⟨rfl, fun c hc => ?_⟩
      intro hceq
      have : c ∈ customers.filter fun c => c.customer_id == o.customer_id :=
        List.mem_filter.mpr ⟨hc, by simp [hceq]⟩
      rw [hfil] at this
      exact List.not_mem_nil c this
    · rw [hfil] at hcase
      simp only [List.mem_map] at hcase
      obtain ⟨c, hcmem, hcase⟩ := hcase
      subst hcase
      have hc : c ∈ customers.filter fun c => c.customer_id == o.customer_id := by
        rw [hfil]; exact hcmem
      obtain ⟨hcc, hcid⟩ := List.mem_filter.mp hc
      refine ⟨ho, helig, ht, by simpa using hst, by simpa using hmatch, ?_⟩
      right
      exact ⟨c, hcc, rfl, eq_of_beq hcid⟩
  · intro ⟨ho, helig, ht, hst, hmatch, hcust⟩
    simp only [settlement, List.mem_flatMap, List.mem_filter,
      eligible_orders, settled_transactions]
    refine ⟨r.order, ⟨ho, helig⟩, r.txn, ⟨⟨ht, by simp [hst]⟩,
      by simp [hmatch]⟩, ?_⟩
    rcases hfil : customers.filter
        (fun c => c.customer_id == r.order.customer_id) with _ | ⟨c0, cs⟩
    · rw [hfil]
      rcases hcust with ⟨hnone, _⟩ | ⟨c, hcmem, _, hcid⟩
      · simp only [List.mem_singleton]
        cases r with
        | mk ord tx cu =>
          simp only at hnone
          subst hnone; rfl
      · exfalso
        have hcf : c ∈ customers.filter
            fun c => c.customer_id == r.order.customer_id :=
          List.mem_filter.mpr ⟨hcmem, by simp [hcid]⟩
        rw [hfil] at hcf
        exact List.not_mem_nil c hcf
    · rw [hfil]
      rcases hcust with ⟨hnone, hall⟩ | ⟨c, hcmem, hsome, hcid⟩
      · exfalso
        have hc0f : c0 ∈ customers.filter
            fun c => c.customer_id == r.order.customer_id := by
          rw [hfil]; exact List.mem_cons_self c0 cs
        obtain ⟨hc0, hcb⟩ := List.mem_filter.mp hc0f
        exact hall c0 hc0 (eq_of_beq hcb)
      · have hcf : c ∈ customers.filter
            fun c => c.customer_id == r.order.customer_id :=
          List.mem_filter.mpr ⟨hcmem, by simp [hcid]⟩
        rw [hfil] at hcf
        simp only [List.mem_map]
        refine ⟨c, hcf, ?_⟩
        cases r with
        | mk ord tx cu =>
          simp only at hsome
          subst hsome; rfl

theorem settlement_pair_mem {orders : List CleanOrder}
    {txns : List Transaction} {customers : List Customer}
    {o : CleanOrder} {t : Transaction}
    (ho : o ∈ orders) (he : payment_eligible o = true) (ht : t ∈ txns)
    (hs : t.status = "settled") (hm : t.order_id = o.order_id) :
    ∃ r ∈ settlement orders txns customers, r.order = o ∧ r.txn = t := by
  by_cases hc : ∃ c ∈ customers, c.customer_id = o.customer_id
  · obtain ⟨c, hcmem, hcid⟩ := hc
    exact ⟨⟨o, t, some c⟩, mem_settlement.mpr
      ⟨ho, he, ht, hs, hm, Or.inr ⟨c, hcmem, rfl, hcid⟩⟩, rfl, rfl⟩
  · exact ⟨⟨o, t, none⟩, mem_settlement.mpr
      ⟨ho, he, ht, hs, hm, Or.inl ⟨rfl, fun c hcm hcid =>
        hc ⟨c, hcm, hcid⟩⟩⟩, rfl, rfl⟩

/-- A payment-eligible order (status "complete") whose only matching
transaction is voided — the situation separating the 6C query from the
spec's wording. -/
def c3Order : CleanOrder :=
  { c10Order with order_id := "ORD-00031", status := "complete" }

/-- The voided transaction matching `c3Order`. -/
def c3VoidTxn : Transaction :=
  { c1Txn with
    transaction_id := "TXN-100031"
    order_id := "ORD-00031"
    status := "voided" }

/-- C3 counterexample: `c3Order` is payment-eligible and has no matching
SETTLED transaction (its only match is voided), so the claim requires it
in the unsettled-orders classification; but the 6C query left-joins
against transactions of every status, finds the voided match, and emits
nothing. -/
theorem c3_unsettled_counterexample :
    payment_eligible c3Order = true ∧
    (∀ t ∈ [c3VoidTxn],
      ¬(t.status = "settled" ∧ t.order_id = c3Order.order_id)) ∧
    unsettled_orders [c3Order] [c3VoidTxn] = [] := by
  refine ⟨rfl, ?_, ?_⟩
  · intro t ht
    rw [List.mem_singleton] at ht
    subst ht
    rintro ⟨hst, -⟩
    simp [c3VoidTxn, c1Txn] at hst
  · rfl

/-- C3 (amended): the 6C query classifies as unsettled exactly the
payment-eligible orders with no matching transaction OF ANY STATUS (not
merely no settled one); in particular an order with status "complete"
and no matching transaction at all appears in the unsettled
classification and never in the settlement output. -/
theorem c3_unsettled_amended (orders : List CleanOrder)
    (txns : List Transaction) :
    (∀ o : CleanOrder, o ∈ unsettled_orders orders txns ↔
      o ∈ orders ∧ payment_eligible o = true ∧
      ∀ t ∈ txns, t.order_id ≠ o.order_id) ∧
    (∀ o ∈ orders, o.status = "complete" →
      (∀ t ∈ txns, t.order_id ≠ o.order_id) →
      o ∈ unsettled_orders orders txns ∧
      ∀ customers : List Customer,
        ∀ r ∈ settlement orders txns customers, r.order ≠ o) := by
  have hchar : ∀ o : CleanOrder, o ∈ unsettled_orders orders txns ↔
      o ∈ orders ∧ payment_eligible o = true ∧
      ∀ t ∈ txns, t.order_id ≠ o.order_id := by
    intro o
    simp only [unsettled_orders, List.mem_filter, Bool.and_eq_true,
      List.all_eq_true, Bool.not_eq_true', beq_eq_false_iff_ne, ne_eq]
  refine ⟨hchar, ?_⟩
  intro o ho hstatus hnone
  have helig : payment_eligible o = true := by
    simp [payment_eligible, STATUS_MAP, hstatus]
  refine ⟨(hchar o).mpr ⟨ho, helig, hnone⟩, ?_⟩
  intro customers r hr hro
  obtain ⟨-, -, ht, -, hmatch, -⟩ := mem_settlement.mp hr
  exact hnone r.txn ht (hro ▸ hmatch)

/-- Witness for the amended C3 at the concrete voided-match input: the
order is not classified unsettled because a (voided) transaction
matches. -/
theorem c3_unsettled_amended_witness :
    c3Order ∉ unsettled_orders [c3Order] [c3VoidTxn] := by
  intro hmem
  have h := ((c3_unsettled_amended [c3Order] [c3VoidTxn]).1 c3Order).mp hmem
  exact h.2.2 c3VoidTxn (List.mem_singleton.mpr rfl) rfl

/-- A payment-eligible order matched by TWO settled transactions,
probing the "exactly one matching settled transaction" wording. -/
def c2Order : CleanOrder := { c10Order with order_id := "ORD-00041" }

/-- First settled transaction matching `c2Order`. -/
def c2TxnA : Transaction :=
  { c1Txn with
    transaction_id := "TXN-100041"
    order_id := "ORD-00041" }

/-- Second settled transaction matching `c2Order`. -/
def c2TxnB : Transaction :=
  { c1Txn with
    transaction_id := "TXN-100042"
    order_id := "ORD-00041" }

/-- C2 counterexample: `c2Order` does NOT have exactly one matching
settled transaction (it has two), so the claim requires it excluded from
the settlement output; but the inner join emits two records for it. -/
theorem c2_exactly_one_counterexample :
    ¬(∃! t, t ∈ [c2TxnA, c2TxnB] ∧ t.status = "settled" ∧
        t.order_id = c2Order.order_id) ∧
    (settlement [c2Order] [c2TxnA, c2TxnB] []).length = 2 ∧
    ∃ r ∈ settlement [c2Order] [c2TxnA, c2TxnB] [], r.order = c2Order := by
  refine ⟨?_, rfl, ?_⟩
  · rintro ⟨t, -, huniq⟩
    have hA := huniq c2TxnA ⟨by simp, rfl, rfl⟩
    have hB := huniq c2TxnB ⟨by simp, rfl, rfl⟩
    have : c2TxnA = c2TxnB := hA.trans hB.symm
    have hid := congrArg Transaction.transaction_id this
    simp [c2TxnA, c2TxnB, c1Txn] at hid
  · exact ⟨⟨c2Order, c2TxnA, none⟩, List.mem_cons_self _ _, rfl⟩

/-- C2 (amended): the settlement output contains a record for an order
exactly when the order is payment-eligible and AT LEAST ONE matching
settled transaction exists, with one record per (eligible order,
matching settled transaction) pair of the inner join; orders that are
ineligible or without any settled transaction are excluded, and an order
whose customer identifier matches no customer record is still included,
with null customer fields. -/
theorem c2_settlement_inclusion_amended (orders : List CleanOrder)
    (txns : List Transaction) (customers : List Customer) :
    (∀ o : CleanOrder,
      (∃ r ∈ settlement orders txns customers, r.order = o) ↔
      (o ∈ orders ∧ payment_eligible o = true ∧
        ∃ t ∈ txns, t.status = "settled" ∧ t.order_id = o.order_id)) ∧
    (∀ o ∈ orders, ∀ t ∈ txns, payment_eligible o = true →
      t.status = "settled" → t.order_id = o.order_id →
      ∃ r ∈ settlement orders txns customers,
        r.order = o ∧ r.txn = t) ∧
    (∀ r ∈ settlement orders txns customers,
      r.order ∈ orders ∧ payment_eligible r.order = true ∧
      r.txn ∈ txns ∧ r.txn.status = "settled" ∧
      r.txn.order_id = r.order.order_id ∧
      (r.customer = none ↔
        ∀ c ∈ customers, c.customer_id ≠ r.order.customer_id)) := by
  refine ⟨?_, ?_, ?_⟩
  · intro o
    constructor
    · rintro ⟨r, hr, rfl⟩
      obtain ⟨ho, helig, ht, hst, hmatch, -⟩ := mem_settlement.mp hr
      exact ⟨ho, helig, r.txn, ht, hst, hmatch⟩
    · rintro ⟨ho, helig, t, ht, hst, hmatch⟩
      obtain ⟨r, hr, hro, -⟩ := settlement_pair_mem ho helig ht hst hmatch
      exact ⟨r, hr, hro⟩
  · intro o ho t ht helig hst hmatch
    exact settlement_pair_mem ho helig ht hst hmatch
  · intro r hr
    obtain ⟨ho, helig, ht, hst, hmatch, hcust⟩ := mem_settlement.mp hr
    refine ⟨ho, helig, ht, hst, hmatch, ?_⟩
    constructor
    · intro hnone
      rcases hcust with ⟨-, hall⟩ | ⟨c, -, hsome, -⟩
      · exact hall
      · rw [hnone] at hsome; cases hsome
    · intro hall
      rcases hcust with ⟨hnone, -⟩ | ⟨c, hcmem, -, hcid⟩
      · exact hnone
      · exact absurd hcid (hall c hcmem)

/-- Witness for the amended C2: the doubly-settled order appears in the
settlement output (with an empty customer table, so with null customer
fields), via the inclusion characterization. -/
theorem c2_settlement_inclusion_amended_witness :
    ∃ r ∈ settlement [c2Order] [c2TxnA, c2TxnB] [], r.order = c2Order :=
  ((c2_settlement_inclusion_amended [c2Order] [c2TxnA, c2TxnB] []).1
    c2Order).mpr
    ⟨List.mem_singleton.mpr rfl, rfl, c2TxnA, by simp, rfl, rfl⟩

/-- The first of the three orphan transactions injected in Section 2:
a settled processor record whose order identifier exists in no order. -/
def ghostTxn : Transaction :=
  { transaction_id := "TXN-ORPHAN-0"
    order_id := "ORD-GHOST-0"
    settle_date := "2024-09-01"
    gross_amount := 120.55
    processor_fee := 5
    net_amount := 115.55
    status := "settled"
    auth_code := "AUTH990" }

/-- C8: a settled transaction whose order identifier matches no order
appears exactly once among the 4G orphan transactions; its Issue carries
the gross dollar amount and the "Escalate to finance team for
investigation" remediation; and no settlement record can contain it,
for any cleaned order set drawn from the raw orders' identifiers. -/
theorem c8_orphan_transaction (rawOrders : List RawOrder)
    (cleanOrders : List CleanOrder) (txns : List Transaction)
    (customers : List Customer) (t : Transaction)
    (hcount : txns.count t = 1) (hst : t.status = "settled")
    (hnomatch : ∀ o ∈ rawOrders, o.order_id ≠ t.order_id)
    (hlink : ∀ co ∈ cleanOrders, ∃ ro ∈ rawOrders,
      co.order_id = ro.order_id) :
    (orphan_transactions rawOrders txns).count t = 1 ∧
    mkOrphanIssue t ∈ orphan_issues rawOrders txns ∧
    (mkOrphanIssue t).amount = some t.gross_amount ∧
    (mkOrphanIssue t).action_required =
      "Escalate to finance team for investigation" ∧
    ∀ r ∈ settlement cleanOrders txns customers, r.txn ≠ t := by
  have hpt : (t.status == "settled" &&
      rawOrders.all fun o => !(o.order_id == t.order_id)) = true := by
    rw [Bool.and_eq_true]
    refine ⟨by simp [hst], ?_⟩
    rw [List.all_eq_true]
    intro o ho
    simpa using hnomatch o ho
  have hcnt : (orphan_transactions rawOrders txns).count t = 1 := by
    rw [orphan_transactions]
    exact (List.count_filter
      (p := fun tr : Transaction => tr.status == "settled" &&
        rawOrders.all fun o => !(o.order_id == tr.order_id))
      (l := txns) hpt).trans hcount
  refine ⟨hcnt, ?_, rfl, rfl, ?_⟩
  · rw [orphan_issues]
    exact List.mem_map_of_mem mkOrphanIssue
      (List.count_pos_iff.mp (by rw [hcnt]; exact Nat.one_pos))
  · intro r hr hrt
    obtain ⟨ho, -, -, -, hmatch, -⟩ := mem_settlement.mp hr
    obtain ⟨ro, hro, hroid⟩ := hlink r.order ho
    exact hnomatch ro hro ((hroid.symm.trans hmatch.symm).trans
      (congrArg Transaction.order_id hrt))

/-- Witness for C8: the injected ghost transaction against the concrete
raw order batch. -/
theorem c8_orphan_transaction_witness :
    (orphan_transactions [combinedTaxOrder] [ghostTxn]).count ghostTxn = 1 ∧
    mkOrphanIssue ghostTxn ∈ orphan_issues [combinedTaxOrder] [ghostTxn] ∧
    (mkOrphanIssue ghostTxn).amount = some ghostTxn.gross_amount ∧
    (mkOrphanIssue ghostTxn).action_required =
      "Escalate to finance team for investigation" ∧
    ∀ r ∈ settlement [] [ghostTxn] [], r.txn ≠ ghostTxn :=
  c8_orphan_transaction [combinedTaxOrder] [] [ghostTxn] [] ghostTxn
    (by simp) rfl
    (by intro o ho; rw [List.mem_singleton] at ho; subst ho; decide)
    (by simp)

/-- A raw order whose subtotal text still holds non-numeric residue
after stripping the currency symbol and separators. -/
def badSubtotalOrder : RawOrder :=
  { combinedTaxOrder with
    order_id := "ORD-00051"
    subtotal := "$N/A".data }

/-- A raw order whose subtotal text parses cleanly. -/
def goodSubtotalOrder : RawOrder :=
  { combinedTaxOrder with
    order_id := "ORD-00052"
    subtotal := "$1,247.50".data }

/-- C4, behavior at the failing input: one unparseable subtotal in the
batch makes the T3 conversion (`.astype(float)`, which raises) fail for
the ENTIRE batch — no parse-failure marker is placed on the bad record
and the well-formed record in the same batch is not normalized either,
contrary to the claim (and to the T5 date transform, which coerces
failures to null markers per record). -/
theorem c4_parse_failure_aborts_batch :
    subtotal_clean badSubtotalOrder = none ∧
    subtotal_clean goodSubtotalOrder = some 1247.50 ∧
    clean_subtotals [goodSubtotalOrder] = .ok [1247.50] ∧
    clean_subtotals [badSubtotalOrder, goodSubtotalOrder] =
      .error "could not convert string to float" := by
  have hbadp : parseFloat (strip_currency badSubtotalOrder.subtotal) =
      none := rfl
  have hbad : subtotal_clean badSubtotalOrder = none := by
    rw [subtotal_clean, hbadp]; rfl
  have hgoodp : parseFloat (strip_currency goodSubtotalOrder.subtotal) =
      some (((1247 : ℕ) : ℚ) + ((50 : ℕ) : ℚ) / 10 ^ (2 : ℕ)) := rfl
  have hval : (((1247 : ℕ) : ℚ) + ((50 : ℕ) : ℚ) / 10 ^ (2 : ℕ)) =
      1247.50 := by push_cast; norm_num
  have hgood : subtotal_clean goodSubtotalOrder = some 1247.50 := by
    rw [subtotal_clean, hgoodp, Option.map_some', hval,
      round2_eq_self ⟨124750, by norm_num⟩]
  refine ⟨hbad, hgood, ?_, ?_⟩
  · rw [clean_subtotals, hgood]; rfl
  · rw [clean_subtotals, hbad]

/-! ### Character-level lemmas for SKU canonicalization -/

theorem char_toNat_ofNat_valid (n : ℕ) (h : n < 0xd800) :
    (Char.ofNat n).toNat = n := by
  rw [Char.ofNat, dif_pos (Or.inl h)]
  simp [Char.ofNatAux, Char.toNat, UInt32.toNat]

theorem toUpper_eq_of_not {c : Char}
    (h : ¬(c.toNat ≥ 97 ∧ c.toNat ≤ 122)) : c.toUpper = c := by
  unfold Char.toUpper
  exact if_neg h

theorem toUpper_of_range {c : Char} (h : c.toNat ≥ 97 ∧ c.toNat ≤ 122) :
    c.toUpper = Char.ofNat (c.toNat - 32) := by
  unfold Char.toUpper
  exact if_pos h

theorem toUpper_toUpper (c : Char) : c.toUpper.toUpper = c.toUpper := by
  by_cases h : c.toNat ≥ 97 ∧ c.toNat ≤ 122
  · rw [toUpper_of_range h]
    apply toUpper_eq_of_not
    rw [char_toNat_ofNat_valid (c.toNat - 32) (by omega)]
    omega
  · rw [toUpper_eq_of_not h]
    exact toUpper_eq_of_not h

theorem isWhitespace_false_of_alpha {c : Char}
    (h : (65 ≤ c.toNat ∧ c.toNat ≤ 90) ∨ (97 ≤ c.toNat ∧ c.toNat ≤ 122)) :
    c.isWhitespace = false := by
  rw [Char.isWhitespace]
  simp only [Bool.or_eq_false_iff, decide_eq_false_iff_not]
  refine ⟨⟨⟨?_, ?_⟩, ?_⟩, ?_⟩ <;> rintro rfl <;> revert h <;> decide

theorem isWhitespace_toUpper (c : Char) :
    c.toUpper.isWhitespace = c.isWhitespace := by
  by_cases h : c.toNat ≥ 97 ∧ c.toNat ≤ 122
  · rw [toUpper_of_range h,
      isWhitespace_false_of_alpha (c := Char.ofNat (c.toNat - 32))
        (Or.inl (by rw [char_toNat_ofNat_valid (c.toNat - 32) (by omega)]
                    omega)),
      isWhitespace_false_of_alpha (Or.inr ⟨h.1, h.2⟩)]
  · rw [toUpper_eq_of_not h]

/-- The per-character effect of the two separator replacements of T2:
underscore then space, each to hyphen. -/
def hyph (c : Char) : Char :=
  if (if c == '_' then '-' else c) == ' ' then '-'
  else if c == '_' then '-' else c

theorem sepToHyphen_eq_map (l : List Char) : sepToHyphen l = l.map hyph := by
  rw [sepToHyphen, List.map_map]
  rfl

theorem hyph_eq (c : Char) :
    hyph c = if c = '_' ∨ c = ' ' then '-' else c := by
  by_cases h1 : c = '_'
  · subst h1; decide
  · by_cases h2 : c = ' '
    · subst h2; decide
    · simp [hyph, h1, h2]

theorem hyph_hyph (c : Char) : hyph (hyph c) = hyph c := by
  rw [hyph_eq c]
  by_cases h : c = '_' ∨ c = ' '
  · simp [h]; decide
  · simp [h, hyph_eq, h]

theorem isWhitespace_hyph {c : Char} (h : c.isWhitespace = false) :
    (hyph c).isWhitespace = false := by
  rw [hyph_eq]
  by_cases hc : c = '_' ∨ c = ' '
  · simp [hc]
  · simpa [hc] using h

theorem toUpper_hyph_toUpper (c : Char) :
    (hyph c.toUpper).toUpper = hyph c.toUpper := by
  rw [hyph_eq]
  by_cases h : c.toUpper = '_' ∨ c.toUpper = ' '
  · simp [h]
  · simpa [h] using toUpper_toUpper c

/-! ### Strip-level lemmas for SKU canonicalization -/

theorem stripList_front (l : List Char) :
    stripList l <+: l.dropWhile Char.isWhitespace := by
  rw [stripList]
  have h := (List.dropWhile_suffix
    (l := (l.dropWhile Char.isWhitespace).reverse)
    Char.isWhitespace).reverse
  simpa using h

theorem stripList_subset (l : List Char) : ∀ x ∈ stripList l, x ∈ l := by
  intro x hx
  exact (((stripList_front l).sublist).trans
    (List.dropWhile_sublist Char.isWhitespace)).subset hx

theorem head?_stripList {l : List Char} {a : Char}
    (h : (stripList l).head? = some a) : a.isWhitespace = false := by
  obtain ⟨t, ht⟩ := stripList_front l
  have hhead : (l.dropWhile Char.isWhitespace).head? = some a := by
    rw [← ht]
    cases hs : stripList l with
    | nil => rw [hs] at h; cases h
    | cons x xs =>
      rw [hs] at h
      cases h
      rfl
  have hw := List.head?_dropWhile_not Char.isWhitespace l
  rw [hhead] at hw
  exact hw

theorem getLast?_stripList {l : List Char} {a : Char}
    (h : (stripList l).getLast? = some a) : a.isWhitespace = false := by
  rw [stripList, List.getLast?_reverse] at h
  have hw := List.head?_dropWhile_not Char.isWhitespace
    (l.dropWhile Char.isWhitespace).reverse
  rw [h] at hw
  exact hw

theorem dropWhile_eq_self_of_head {l : List Char} {p : Char → Bool}
    (h : ∀ a, l.head? = some a → p a = false) : l.dropWhile p = l := by
  cases l with
  | nil => rfl
  | cons x xs =>
    rw [List.dropWhile_cons_of_neg]
    simp [h x rfl]

theorem stripList_eq_self {l : List Char}
    (h1 : ∀ a, l.head? = some a → a.isWhitespace = false)
    (h2 : ∀ a, l.getLast? = some a → a.isWhitespace = false) :
    stripList l = l := by
  rw [stripList, dropWhile_eq_self_of_head h1,
    dropWhile_eq_self_of_head ?_, List.reverse_reverse]
  intro a ha
  rw [List.head?_reverse] at ha
  exact h2 a ha

/-- The characters, head and tail of a canonicalized SKU are already in
normal form: every character is fixed by upper-casing and by separator
replacement, and no surrounding whitespace remains. -/
def CanonSku (l : List Char) : Prop :=
  (∀ c ∈ l, c.toUpper = c ∧ hyph c = c) ∧
  (∀ a, l.head? = some a → a.isWhitespace = false) ∧
  (∀ a, l.getLast? = some a → a.isWhitespace = false)

theorem normalize_sku_canon (l : List Char) :
    CanonSku (normalize_sku l) := by
  have hform : normalize_sku l =
      (stripList (toUpperList l)).map hyph := by
    rw [normalize_sku, sepToHyphen_eq_map]
  refine ⟨?_, ?_, ?_⟩
  · intro c hc
    rw [hform] at hc
    obtain ⟨y, hy, rfl⟩ := List.mem_map.mp hc
    have hyl : y ∈ toUpperList l := stripList_subset _ y hy
    obtain ⟨c0, -, rfl⟩ := List.mem_map.mp hyl
    exact ⟨toUpper_hyph_toUpper c0, hyph_hyph _⟩
  · intro a ha
    rw [hform, List.head?_map] at ha
    cases hh : (stripList (toUpperList l)).head? with
    | none => rw [hh] at ha; cases ha
    | some b =>
      rw [hh] at ha
      cases ha
      exact isWhitespace_hyph (head?_stripList hh)
  · intro a ha
    rw [hform, List.getLast?_map] at ha
    cases hh : (stripList (toUpperList l)).getLast? with
    | none => rw [hh] at ha; cases ha
    | some b =>
      rw [hh] at ha
      cases ha
      exact isWhitespace_hyph (getLast?_stripList hh)

theorem normalize_sku_of_canon {l : List Char} (h : CanonSku l) :
    normalize_sku l = l := by
  obtain ⟨hc, hh, hl⟩ := h
  have hup : toUpperList l = l := by
    rw [toUpperList,
      List.map_congr_left (fun a ha => (hc a ha).1), List.map_id']
  rw [normalize_sku, hup, stripList_eq_self hh hl, sepToHyphen_eq_map,
    List.map_congr_left (fun a ha => (hc a ha).2), List.map_id']

/-- The separator characters unified by T2. -/
def sepChars : List Char := ['-', '_', ' ']

/-- Two raw SKU texts are case/separator variants of the same logical
SKU: same length, and position by position either the characters agree
up to letter case or both are separators (hyphen, underscore, space). -/
def sku_variant (s t : List Char) : Bool :=
  (s.length == t.length) &&
    (s.zip t).all fun p =>
      (p.1.toUpper == p.2.toUpper) ||
        (sepChars.contains p.1 && sepChars.contains p.2)

/-- The text has no leading or trailing whitespace. -/
def no_edge_ws (l : List Char) : Bool :=
  (l.head?.all fun c => !c.isWhitespace) &&
    (l.getLast?.all fun c => !c.isWhitespace)

theorem hyph_toUpper_of_variant {a b : Char}
    (h : ((a.toUpper == b.toUpper) ||
      (sepChars.contains a && sepChars.contains b)) = true) :
    hyph a.toUpper = hyph b.toUpper := by
  rcases Bool.or_eq_true_iff.mp h with h1 | h2
  · rw [eq_of_beq h1]
  · obtain ⟨ha, hb⟩ := Bool.and_eq_true_iff.mp h2
    have ha2 : a ∈ sepChars := by
      rw [List.contains, List.elem_iff] at ha; exact ha
    have hb2 : b ∈ sepChars := by
      rw [List.contains, List.elem_iff] at hb; exact hb
    simp only [sepChars, List.mem_cons, List.mem_singleton,
      List.not_mem_nil, or_false] at ha2 hb2
    rcases ha2 with rfl | rfl | rfl <;> rcases hb2 with rfl | rfl | rfl <;>
      decide

theorem variant_map_eq : ∀ s t : List Char, sku_variant s t = true →
    (s.map fun c => hyph c.toUpper) = t.map fun c => hyph c.toUpper := by
  intro s
  induction s with
  | nil =>
    intro t h
    cases t with
    | nil => rfl
    | cons b t => simp [sku_variant] at h
  | cons a s ih =>
    intro t h
    cases t with
    | nil => simp [sku_variant] at h
    | cons b t =>
      rw [sku_variant, Bool.and_eq_true, List.zip_cons_cons,
        List.all_cons, Bool.and_eq_true] at h
      obtain ⟨hlen, hp, hrest⟩ := h
      rw [List.map_cons, List.map_cons, hyph_toUpper_of_variant hp]
      congr 1
      refine ih t ?_
      rw [sku_variant, Bool.and_eq_true]
      refine ⟨?_, hrest⟩
      simp only [List.length_cons, beq_iff_eq] at hlen ⊢
      omega

theorem normalize_sku_of_no_edge_ws {s : List Char}
    (hs : no_edge_ws s = true) :
    normalize_sku s = s.map fun c => hyph c.toUpper := by
  rw [no_edge_ws, Bool.and_eq_true] at hs
  obtain ⟨hh, hl⟩ := hs
  have hstrip : stripList (toUpperList s) = toUpperList s := by
    refine stripList_eq_self ?_ ?_
    · intro a ha
      rw [toUpperList, List.head?_map] at ha
      cases hsh : s.head? with
      | none => rw [hsh] at ha; cases ha
      | some c =>
        rw [hsh] at ha
        cases ha
        rw [isWhitespace_toUpper]
        rw [hsh] at hh
        simpa using hh
    · intro a ha
      rw [toUpperList, List.getLast?_map] at ha
      cases hsl : s.getLast? with
      | none => rw [hsl] at ha; cases ha
      | some c =>
        rw [hsl] at ha
        cases ha
        rw [isWhitespace_toUpper]
        rw [hsl] at hl
        simpa using hl
  rw [normalize_sku, hstrip, sepToHyphen_eq_map, toUpperList,
    List.map_map]
  rfl

/-- C9: SKU canonicalization (uppercase, strip surrounding whitespace,
separators to hyphen) is idempotent, and any two raw SKU texts that are
case/separator variants of the same logical SKU (and carry no
surrounding whitespace) canonicalize to the identical string. -/
theorem c9_sku_canonicalization :
    (∀ l : List Char, normalize_sku (normalize_sku l) = normalize_sku l) ∧
    (∀ s t : List Char, no_edge_ws s = true → no_edge_ws t = true →
      sku_variant s t = true → normalize_sku s = normalize_sku t) := by
  constructor
  · intro l
    exact normalize_sku_of_canon (normalize_sku_canon l)
  · intro s t hs ht hv
    rw [normalize_sku_of_no_edge_ws hs, normalize_sku_of_no_edge_ws ht]
    exact variant_map_eq s t hv

/-- Witness for C9: idempotence on a messy raw SKU, and agreement of the
underscore/lowercase and hyphen/space variants of the lighting SKU. -/
theorem c9_sku_canonicalization_witness :
    normalize_sku (normalize_sku "  sku_led 001 ".data) =
      normalize_sku "  sku_led 001 ".data ∧
    normalize_sku "sku_led_001".data = normalize_sku "SKU-LED 001".data :=
  ⟨c9_sku_canonicalization.1 _,
    c9_sku_canonicalization.2 "sku_led_001".data "SKU-LED 001".data
      (by decide) (by decide) (by decide)⟩

end Magento
